import Mathlib

/-!
# Verification of `gdb_extracted.py`

A shallow embedding of the GDB CSV ingestion and batch-orchestration code of
`gdb_extracted.py` (functions `fillFromFile`, `pathMatch`, `syntax`/`main`),
together with proofs settling the specification claims.

Modelling conventions:
* A file is a list of physical lines exactly as Python file iteration yields
  them: every line except possibly the last ends with a newline character.
* Python exceptions are modelled by `Except PyError`; `fillFromFile`'s
  `return None` on a header mismatch is the `Option.none` inside the `ok`.
* Python `int(...)` is modelled exactly (whitespace stripping, optional sign,
  digits).  Python `float(...)` values never influence any claim, only the
  success or failure of the parse does, so a floating-point field is carried
  as its validated source text and the grammar check mirrors `float(...)`.
* `datetime.strptime(s, '%m/%d/%Y %H:%M:%S')` is modelled field by field,
  including range and day-of-month/leap-year validation; the code immediately
  discards the date and keeps only hour/minute/second, so the model returns
  the time of day.
* The external projection `GPS.gps2feet` is an opaque parameter function.
* The external matching engine `path_engine.PathEngine.constructPath` is an
  opaque parameter function of the trace.
-/

/-- Python exception kinds that the embedded code can raise. -/
inductive PyError where
  | valueError
  | indexError
  | typeError
  | attributeError
deriving DecidableEq

/-- A time-of-day value, the result of the ingestion code's
`datetime.strptime(...)` pipeline after the date is discarded. -/
structure PyTime where
  hour : Nat
  minute : Nat
  second : Nat
deriving DecidableEq

/-- Embedding of `gtfs.ShapesEntry` as constructed and populated by
`fillFromFile`: identifier, sequence number (`shapeSeq`, from the OBJECTID
column), latitude/longitude (as validated source text, see the module
comment), projected coordinates from `GPS.gps2feet`, the time of day, and the
final constructor flag `False`. -/
structure ShapesEntry where
  shapeID : String
  shapeSeq : Int
  lat : String
  lng : String
  pointX : String
  pointY : String
  time : PyTime
  typeFlag : Bool
deriving DecidableEq

/-! ## Python string / numeric primitives -/

/-- The six ASCII whitespace characters recognized by Python's `str.strip()`
(implicit in `int(...)`/`float(...)`) and by the `\s` regex class used by
`strptime` on byte strings. -/
def isPySpace (c : Char) : Bool :=
  c = ' ' || c = '\t' || c = '\n' || c = '\x0d' || c = '\x0b' || c = '\x0c'

/-- Strip leading and trailing Python whitespace. -/
def stripWs (l : List Char) : List Char :=
  ((l.dropWhile isPySpace).reverse.dropWhile isPySpace).reverse

/-- Numeric value of a digit string. -/
def digitsToNat (l : List Char) : Nat :=
  l.foldl (fun a c => a * 10 + (c.toNat - '0'.toNat)) 0

/-- A nonempty all-digit string. -/
def digitsOk (l : List Char) : Bool :=
  !l.isEmpty && l.all Char.isDigit

/-- Python `int(s)` for byte strings: optional surrounding whitespace, an
optional sign, then one or more decimal digits. `none` models `ValueError`. -/
def pyIntCore (s : String) : Option Int :=
  match stripWs s.data with
  | [] => none
  | a :: rest =>
    if a = '+' then (if digitsOk rest then some (digitsToNat rest : Int) else none)
    else if a = '-' then (if digitsOk rest then some (-(digitsToNat rest : Int)) else none)
    else if digitsOk (a :: rest) then some (digitsToNat (a :: rest) : Int) else none

/-- Python `int(s)`, raising `ValueError` on a malformed literal. -/
def pyInt (s : String) : Except PyError Int :=
  match pyIntCore s with
  | some n => .ok n
  | none => .error .valueError

/-- Exponent part of a Python float literal: empty, or `e`/`E`, an optional
sign and one or more digits. -/
def floatExpOk (l : List Char) : Bool :=
  match l with
  | [] => true
  | 'e' :: t =>
    (match t with
     | '+' :: d => digitsOk d
     | '-' :: d => digitsOk d
     | d => digitsOk d)
  | 'E' :: t =>
    (match t with
     | '+' :: d => digitsOk d
     | '-' :: d => digitsOk d
     | d => digitsOk d)
  | _ => false

/-- Mantissa-and-exponent part of a Python float literal. -/
def floatBodyOk (l : List Char) : Bool :=
  let ip := l.takeWhile Char.isDigit
  let r1 := l.dropWhile Char.isDigit
  match r1 with
  | '.' :: r2 =>
    let fp := r2.takeWhile Char.isDigit
    let r3 := r2.dropWhile Char.isDigit
    (!ip.isEmpty || !fp.isEmpty) && floatExpOk r3
  | _ => !ip.isEmpty && floatExpOk r1

/-- Python `float(s)` grammar: surrounding whitespace, optional sign, then a
decimal mantissa with optional fraction and exponent, or `inf`/`infinity`/
`nan` in any case. -/
def pyFloatOk (s : String) : Bool :=
  let l := stripWs s.data
  let l := match l with
           | '+' :: t => t
           | '-' :: t => t
           | t => t
  let low := l.map Char.toLower
  if low = ['i', 'n', 'f'] || low = ['i', 'n', 'f', 'i', 'n', 'i', 't', 'y'] ||
     low = ['n', 'a', 'n'] then true
  else floatBodyOk l

/-- Python `float(s)`: the validated source text on success (its numeric value
plays no role in any claim), `ValueError` otherwise. -/
def pyFloat (s : String) : Except PyError String :=
  if pyFloatOk s then .ok s else .error .valueError

/-! ## `strptime` with format `%m/%d/%Y %H:%M:%S` -/

/-- A 1-or-2-digit numeric field with an inclusive value range, as matched by
the `_strptime` regular expressions for `%m`, `%d`, `%H`, `%M`, `%S`: the
maximal digit run is consumed and must have length 1 or 2 and a value inside
the range. -/
def parseNumField (lo hi : Nat) (l : List Char) : Option (Nat × List Char) :=
  let run := l.takeWhile Char.isDigit
  let rest := l.dropWhile Char.isDigit
  if run.length = 0 || 2 < run.length then none
  else
    let v := digitsToNat run
    if lo ≤ v && v ≤ hi then some (v, rest) else none

/-- `%Y`: exactly four digits; `datetime` additionally requires year ≥ 1. -/
def parseYearField (l : List Char) : Option (Nat × List Char) :=
  let run := l.takeWhile Char.isDigit
  let rest := l.dropWhile Char.isDigit
  if run.length = 4 && 1 ≤ digitsToNat run then some (digitsToNat run, rest) else none

/-- A literal whitespace in the format string matches one or more whitespace
characters. -/
def parseWsRun (l : List Char) : Option (List Char) :=
  if (l.takeWhile isPySpace).isEmpty then none else some (l.dropWhile isPySpace)

/-- Gregorian leap-year rule, as validated by `datetime`. -/
def isLeapYear (y : Nat) : Bool :=
  y % 4 = 0 && (y % 100 ≠ 0 || y % 400 = 0)

/-- Days in a month, as validated by `datetime`. -/
def daysInMonth (y m : Nat) : Nat :=
  if m = 2 then (if isLeapYear y then 29 else 28)
  else if m = 4 || m = 6 || m = 9 || m = 11 then 30
  else 31

/-- `datetime.strptime(s, '%m/%d/%Y %H:%M:%S')`, reduced to the data the code
keeps: the time of day.  The whole string must be consumed; the date portion
is validated (month 1-12, day valid for the month and year, year ≥ 1) and then
discarded, exactly as the two `strptime` calls in `fillFromFile` do. -/
def pyStrptimeCore (l : List Char) : Option PyTime :=
  match parseNumField 1 12 l with
  | none => none
  | some (mo, l) =>
    match l with
    | '/' :: l =>
      match parseNumField 1 31 l with
      | none => none
      | some (d, l) =>
        match l with
        | '/' :: l =>
          match parseYearField l with
          | none => none
          | some (y, l) =>
            match parseWsRun l with
            | none => none
            | some l =>
              match parseNumField 0 23 l with
              | none => none
              | some (h, l) =>
                match l with
                | ':' :: l =>
                  match parseNumField 0 59 l with
                  | none => none
                  | some (mi, l) =>
                    match l with
                    | ':' :: l =>
                      match parseNumField 0 59 l with
                      | none => none
                      | some (se, l) =>
                        if l.isEmpty && d ≤ daysInMonth y mo then
                          some ⟨h, mi, se⟩
                        else none
                    | _ => none
                | _ => none
        | _ => none
    | _ => none

/-- The `strptime` pipeline of `fillFromFile`, raising `ValueError` on any
malformed or out-of-range datetime. -/
def pyStrptime (s : String) : Except PyError PyTime :=
  match pyStrptimeCore s.data with
  | some t => .ok t
  | none => .error .valueError

/-! ## `str.split(',')` and `str.startswith` -/

/-- Python `s.split(',')` on the character list: always at least one group,
empty groups preserved. -/
def splitCommaCore : List Char → List (List Char)
  | [] => [[]]
  | c :: cs =>
    match splitCommaCore cs with
    | [] => [[]]
    | g :: gs => if c = ',' then [] :: g :: gs else (c :: g) :: gs

/-- Python `line.split(',')`. -/
def pySplitComma (s : String) : List String :=
  (splitCommaCore s.data).map String.mk

/-- Python `s.startswith(pre)`. -/
def pyStartswith (s pre : String) : Bool :=
  pre.data.isPrefixOf s.data

/-- The fixed 19-column header string that `fillFromFile` compares the first
file line against. -/
def expectedHeaderStr : String :=
  "OBJECTID,StudyId,GISFile,Datafile,UserId,DeviceId,VideoRecorded,UtcDateTime,GPSDateTime,GPSDate,GPSTime,Bearing,SpeedMPH,HDOP,Elevation,Latitude,Longitude,TimePeriodId,RouteId"

/-! ## Ingestion (`fillFromFile`) -/

/-- The `i`-th comma-separated field of a line (total stand-in used in theorem
statements; the code path itself checks the index bound first). -/
def fieldOf (line : String) (i : Nat) : String :=
  (pySplitComma line).getD i ""

/-- The trace identifier built at line 71 of the source:
`lineElems[3] + "(" + lineElems[18] + ")"`. -/
def mkTraceId (datafile routeField : String) : String :=
  datafile ++ "(" ++ routeField ++ ")"

/-- The body of the `for fileLine in inFile` loop for one line: the
`len(fileLine) > 0` guard, the comma split, `int(lineElems[18])` (an
`IndexError` when the line has at most 18 fields), the `routeID > 0` filter,
and the construction of the `ShapesEntry` with the same left-to-right
evaluation order as the source (`int(lineElems[0])`, `float(lineElems[15])`,
`float(lineElems[16])`, then `GPS.gps2feet`, then the `strptime` pipeline on
`lineElems[8]`).  `ok none` means the line contributed no record. -/
def processLine (gps : String → String → String × String) (line : String) :
    Except PyError (Option ShapesEntry) :=
  if 0 < line.length then
    let elems := pySplitComma line
    if 18 < elems.length then
      match pyInt (elems.getD 18 "") with
      | .error e => .error e
      | .ok routeID =>
        if 0 < routeID then
          let identifier := mkTraceId (elems.getD 3 "") (elems.getD 18 "")
          match pyInt (elems.getD 0 "") with
          | .error e => .error e
          | .ok seq =>
            match pyFloat (elems.getD 15 "") with
            | .error e => .error e
            | .ok lat =>
              match pyFloat (elems.getD 16 "") with
              | .error e => .error e
              | .ok lng =>
                let xy := gps lat lng
                match pyStrptime (elems.getD 8 "") with
                | .error e => .error e
                | .ok t => .ok (some ⟨identifier, seq, lat, lng, xy.1, xy.2, t, false⟩)
        else .ok none
    else .error .indexError
  else .ok none

/-- The records produced by the data lines, in file order, with the first
exception propagated (a specification of the loop used by the lemmas; the
dictionary builder below is proved equal to folding this list). -/
def entriesOfLines (gps : String → String → String × String) :
    List String → Except PyError (List ShapesEntry)
  | [] => .ok []
  | l :: ls =>
    match processLine gps l with
    | .error e => .error e
    | .ok none => entriesOfLines gps ls
    | .ok (some en) =>
      match entriesOfLines gps ls with
      | .error e => .error e
      | .ok es => .ok (en :: es)

/-- The per-trace dictionary, modelled as an association list in first-insertion
key order (the Python dict's iteration order never reaches an observable
result: `pathMatch` sorts the keys and the per-trace sort is per-value). -/
abbrev TraceDict := List (String × List ShapesEntry)

/-- Lines 81-83 of the source: create the key's list on first use, then append
the new entry to it. -/
def addEntry (d : TraceDict) (e : ShapesEntry) : TraceDict :=
  if d.any (fun p => p.1 == e.shapeID) then
    d.map (fun p => if p.1 == e.shapeID then (p.1, p.2 ++ [e]) else p)
  else d ++ [(e.shapeID, [e])]

/-- The data-line loop of `fillFromFile`, building up the dictionary. -/
def buildDictAux (gps : String → String → String × String) (acc : TraceDict) :
    List String → Except PyError TraceDict
  | [] => .ok acc
  | l :: ls =>
    match processLine gps l with
    | .error e => .error e
    | .ok none => buildDictAux gps acc ls
    | .ok (some en) => buildDictAux gps (addEntry acc en) ls

/-- The ordering used by `shapesEntries.sort(key = operator.attrgetter('shapeSeq'))`. -/
def seqLe (a b : ShapesEntry) : Prop :=
  a.shapeSeq ≤ b.shapeSeq

instance : DecidableRel seqLe :=
  fun a b => inferInstanceAs (Decidable (a.shapeSeq ≤ b.shapeSeq))

/-- `fillFromFile`: read the first line and compare with `startswith` against
the expected header (returning `none`, the model of Python's `None`, on a
mismatch), process the remaining lines into the dictionary, then sort every
trace ascending by `shapeSeq` with a stable sort (Python's `list.sort` is
stable; any two stable sorts agree, so insertion sort is an exact model). -/
def fillFromFile (fileLines : List String) (gps : String → String → String × String) :
    Except PyError (Option TraceDict) :=
  if pyStartswith (fileLines.headD "") expectedHeaderStr then
    match buildDictAux gps [] fileLines.tail with
    | .error e => .error e
    | .ok ret => .ok (some (ret.map (fun p => (p.1, List.insertionSort seqLe p.2))))
  else .ok none

/-! ## Orchestration (`pathMatch`) and `main` -/

/-- Lexicographic comparison of character lists by code point: the order in
which Python 2's `list.sort()` puts byte strings (for UTF-8 data, byte order
and code-point order coincide). -/
def charListLeB : List Char → List Char → Bool
  | [], _ => true
  | _ :: _, [] => false
  | a :: as, b :: bs =>
    if a.toNat < b.toNat then true
    else if b.toNat < a.toNat then false
    else charListLeB as bs

/-- The string ordering used for `datafileIDs.sort()`. -/
def pyStrLe (a b : String) : Prop :=
  charListLeB a.data b.data = true

instance : DecidableRel pyStrLe :=
  fun a b => inferInstanceAs (Decidable (charListLeB a.data b.data = true))

/-- `pathMatch`, generic in the result type of the external matching engine
(`constructPath` is the opaque `matchFn`).  The database connection and graph
load are external calls represented by the `gps` projection they ultimately
supply.  After ingestion the keys are sorted ascending; then the allow-list
warning loop runs: for a limit entry absent from the keys the source
interpolates the string identifier with the `%d` format, which raises
`TypeError` in Python, modelled as `.error .typeError`.  Finally the matching
loop runs once per key, skipping keys absent from the allow-list. -/
def pathMatch {μ : Type} (matchFn : List ShapesEntry → μ)
    (fileLines : List String) (gps : String → String → String × String)
    (limitMap : Option (List String)) : Except PyError (List (String × μ)) :=
  match fillFromFile fileLines gps with
  | .error e => .error e
  | .ok none => .error .attributeError
  | .ok (some gpsTracks) =>
    let datafileIDs :=
      List.insertionSort pyStrLe (gpsTracks.map Prod.fst)
    let warnOk : Bool :=
      match limitMap with
      | none => true
      | some lm => lm.all (fun x => datafileIDs.contains x)
    if warnOk then
      .ok (datafileIDs.filterMap (fun tid =>
        match limitMap with
        | some lm =>
          if lm.contains tid then
            some (tid, matchFn ((gpsTracks.lookup tid).getD []))
          else none
        | none => some (tid, matchFn ((gpsTracks.lookup tid).getD []))))
    else .error .typeError

/-- The four lines printed by the source's usage function. -/
def usageLines : List String :=
  ["gdb_extracted.py matches a GDB text format GPS track to a VISTA network series",
   "of links and outputs a CSV format of data in the standard output format.",
   "Usage:",
   "  python gdb_extracted.py dbServer network user password gdbTextFile"]

/-- What `main(argv)` does before any ingestion or matching: either print the
usage text and exit with the given status via `sys.exit`, or proceed into the
batch with the five extracted arguments. -/
inductive MainAction where
  | usage (message : List String) (exitStatus : Nat)
  | run (dbServer networkName userName password filename : String)
deriving DecidableEq

/-- The source function `main(argv)` (with `argv[0]` the program name, as
passed by `sys.argv`; the name `main` is reserved in Lean):
fewer than six elements prints the usage text and exits with status 0,
otherwise the five parameters are read and the batch runs. -/
def mainProgram (argv : List String) : MainAction :=
  if argv.length < 6 then .usage usageLines 0
  else .run (argv.getD 1 "") (argv.getD 2 "") (argv.getD 3 "") (argv.getD 4 "")
    (argv.getD 5 "")

/-- The sub-list of `es`, in order, whose records belong to trace `t`. -/
def traceOf (es : List ShapesEntry) (t : String) : List ShapesEntry :=
  es.filter (fun e => e.shapeID == t)

/-- Invariant tying the dictionary to the list of entries already folded into
it: keys are distinct, a key is present exactly when some entry carries it,
and each key's list is the in-order sub-list of entries with that key. -/
def goodDict (past : List ShapesEntry) (d : TraceDict) : Prop :=
  (d.map Prod.fst).Nodup ∧
  (∀ t, t ∈ d.map Prod.fst ↔ t ∈ past.map ShapesEntry.shapeID) ∧
  (∀ p ∈ d, p.2 = traceOf past p.1)

/-! ## Concrete inputs for the scenario checks -/

/-- A concrete stand-in for the external `GPS.gps2feet` projection. -/
def gps0 : String → String → String × String := fun _ _ => ("", "")

/-- A data row with the given OBJECTID, Datafile, Latitude and RouteId fields
(19 fields; the other fields are fixed filler). -/
def mkRow (oid df lat route : String) : String :=
  oid ++ ",1,g," ++ df ++ ",u,dev,0,utc,10/01/2014 12:34:56,gd,gt,0,0,0,0," ++
    lat ++ ",-97.7,1," ++ route

/-- The record produced by `mkRow` under `gps0`. -/
def mkRowEntry (tid : String) (seq : Int) (lat : String) : ShapesEntry :=
  ⟨tid, seq, lat, "-97.7", "", "", ⟨12, 34, 56⟩, false⟩

/-- One-data-row file whose final line has no terminator: Datafile `A`,
RouteId `5`. -/
def c3Lines : List String :=
  [expectedHeaderStr ++ "\n", mkRow "1" "A" "30.5" "5"]

/-- A file whose header carries an extra trailing column but is otherwise the
expected header. -/
def c1Lines : List String :=
  [expectedHeaderStr ++ ",Extra\n", mkRow "1" "A" "30.5" "5"]

/-- Two same-trace rows appearing with OBJECTID (sequence number) 3 then 1 on
disk; every line ends with a newline, so the RouteId field of both rows is
the string `5` followed by the newline. -/
def c4Lines : List String :=
  [expectedHeaderStr ++ "\n", mkRow "3" "A" "30.5" "5" ++ "\n",
   mkRow "1" "A" "30.5" "5" ++ "\n"]

/-- A two-trace file (`A(5` + newline + `)` and `B(7` + newline + `)`). -/
def c5Lines : List String :=
  [expectedHeaderStr ++ "\n", mkRow "2" "B" "30.5" "7" ++ "\n",
   mkRow "1" "A" "30.5" "5" ++ "\n"]

/-- A valid header followed by a blank line (a newline-only physical line). -/
def c7Lines : List String :=
  [expectedHeaderStr ++ "\n", "\n"]

/-- A row whose RouteId field does not parse as an integer. -/
def c8BadRow : String :=
  mkRow "1" "A" "30.5" "x"

/-- Two same-trace rows with the same sequence number 7 but different
latitude fields, in disk order `30.5` then `31.5`. -/
def c10Lines : List String :=
  [expectedHeaderStr ++ "\n", mkRow "7" "A" "30.5" "5" ++ "\n",
   mkRow "7" "A" "31.5" "5" ++ "\n"]

/-- The ingested (sorted) entries of the single trace of `c4Lines`. -/
def c4Entries : List ShapesEntry :=
  [mkRowEntry "A(5\n)" 1 "30.5", mkRowEntry "A(5\n)" 3 "30.5"]

/-- The mapping ingested from `c5Lines` (keys in first-insertion order). -/
def c5Dict : TraceDict :=
  [("B(7\n)", [mkRowEntry "B(7\n)" 2 "30.5"]), ("A(5\n)", [mkRowEntry "A(5\n)" 1 "30.5"])]

/-- The ingested entries of the single trace of `c10Lines`. -/
def c10Entries : List ShapesEntry :=
  [mkRowEntry "A(5\n)" 7 "30.5", mkRowEntry "A(5\n)" 7 "31.5"]

/-- Two data rows with the same Datafile field `A` and the same parsed route
identifier 5, the first newline-terminated and the second the file's final,
unterminated line: their raw RouteId fields are the texts `5` + newline and
`5`. -/
def c3PairLines : List String :=
  [expectedHeaderStr ++ "\n", mkRow "1" "A" "30.5" "5" ++ "\n",
   mkRow "2" "A" "31.5" "5"]

/-! ## Lemmas about ingestion -/

theorem charListLeB_cons {a b : Char} {as bs : List Char} :
    charListLeB (a :: as) (b :: bs) = true ↔
      (a.toNat < b.toNat ∨ (a.toNat = b.toNat ∧ charListLeB as bs = true)) := by
  rcases Nat.lt_trichotomy a.toNat b.toNat with h | h | h
  · rw [charListLeB, if_pos h]
    exact iff_of_true rfl (Or.inl h)
  · rw [charListLeB, if_neg (by omega), if_neg (by omega)]
    constructor
    · exact fun hr => Or.inr ⟨h, hr⟩
    · rintro (hlt | ⟨_, hr⟩)
      · omega
      · exact hr
  · rw [charListLeB, if_neg (by omega), if_pos h]
    constructor
    · intro hfalse
      exact absurd hfalse (by simp)
    · rintro (hlt | ⟨heq, _⟩) <;> omega

theorem charListLeB_total : ∀ a b : List Char, charListLeB a b = true ∨ charListLeB b a = true
  | [], _ => Or.inl rfl
  | _ :: _, [] => Or.inr rfl
  | a :: as, b :: bs => by
    rw [charListLeB_cons, charListLeB_cons]
    rcases Nat.lt_trichotomy a.toNat b.toNat with h | h | h
    · exact Or.inl (Or.inl h)
    · rcases charListLeB_total as bs with hr | hr
      · exact Or.inl (Or.inr ⟨h, hr⟩)
      · exact Or.inr (Or.inr ⟨h.symm, hr⟩)
    · exact Or.inr (Or.inl h)

theorem charListLeB_trans : ∀ a b c : List Char,
    charListLeB a b = true → charListLeB b c = true → charListLeB a c = true
  | [], _, _ => fun _ _ => rfl
  | _ :: _, [], _ => fun h _ => by simp [charListLeB] at h
  | _ :: _, _ :: _, [] => fun _ h => by simp [charListLeB] at h
  | a :: as, b :: bs, c :: cs => fun h1 h2 => by
    rw [charListLeB_cons] at h1 h2 ⊢
    rcases h1 with h1 | ⟨h1e, h1r⟩
    · rcases h2 with h2 | ⟨h2e, _⟩
      · exact Or.inl (Nat.lt_trans h1 h2)
      · exact Or.inl (h2e ▸ h1)
    · rcases h2 with h2 | ⟨h2e, h2r⟩
      · exact Or.inl (h1e ▸ h2)
      · exact Or.inr ⟨h1e.trans h2e, charListLeB_trans as bs cs h1r h2r⟩


theorem buildDictAux_eq (gps : String → String → String × String) :
    ∀ (lines : List String) (acc : TraceDict),
      buildDictAux gps acc lines =
        (entriesOfLines gps lines).map (fun es => es.foldl addEntry acc)
  | [], acc => rfl
  | l :: ls, acc => by
    rw [buildDictAux, entriesOfLines]
    cases hp : processLine gps l with
    | error e => rfl
    | ok o =>
      cases o with
      | none => exact buildDictAux_eq gps ls acc
      | some en =>
        dsimp only
        rw [buildDictAux_eq gps ls (addEntry acc en)]
        cases he : entriesOfLines gps ls with
        | error e => rfl
        | ok es => rfl

theorem entriesOfLines_mem (gps : String → String → String × String) :
    ∀ (lines : List String) (es : List ShapesEntry) (e : ShapesEntry),
      entriesOfLines gps lines = .ok es → e ∈ es →
      ∃ line, line ∈ lines ∧ processLine gps line = .ok (some e)
  | [], es, e => by
    intro h hm
    rw [entriesOfLines] at h
    cases h
    cases hm
  | l :: ls, es, e => by
    intro h hm
    rw [entriesOfLines] at h
    cases hp : processLine gps l with
    | error err => rw [hp] at h; cases h
    | ok o =>
      rw [hp] at h
      cases o with
      | none =>
        obtain ⟨line, hl, hpl⟩ := entriesOfLines_mem gps ls es e h hm
        exact ⟨line, List.mem_cons_of_mem _ hl, hpl⟩
      | some en =>
        dsimp only at h
        cases he : entriesOfLines gps ls with
        | error err => rw [he] at h; cases h
        | ok es' =>
          rw [he] at h
          cases h
          rcases List.mem_cons.mp hm with rfl | hm'
          · exact ⟨l, List.mem_cons_self _ _, hp⟩
          · obtain ⟨line, hl, hpl⟩ := entriesOfLines_mem gps ls es' e he hm'
            exact ⟨line, List.mem_cons_of_mem _ hl, hpl⟩

theorem entriesOfLines_all_ok (gps : String → String → String × String) :
    ∀ (lines : List String) (es : List ShapesEntry),
      entriesOfLines gps lines = .ok es →
      ∀ l ∈ lines, ∃ v, processLine gps l = .ok v
  | [], _ => by
    intro _ l hl
    cases hl
  | l :: ls, es => by
    intro h l' hl'
    rw [entriesOfLines] at h
    cases hp : processLine gps l with
    | error err => rw [hp] at h; cases h
    | ok o =>
      rw [hp] at h
      rcases List.mem_cons.mp hl' with rfl | hm
      · exact ⟨o, hp⟩
      · cases o with
        | none => exact entriesOfLines_all_ok gps ls es h l' hm
        | some en =>
          dsimp only at h
          cases he : entriesOfLines gps ls with
          | error err => rw [he] at h; cases h
          | ok es' => exact entriesOfLines_all_ok gps ls es' he l' hm

theorem buildDictAux_error (gps : String → String → String × String) :
    ∀ (pre : List String) (acc : TraceDict) (line : String) (post : List String)
      (err : PyError),
      (∀ l ∈ pre, ∃ v, processLine gps l = .ok v) →
      processLine gps line = .error err →
      buildDictAux gps acc (pre ++ line :: post) = .error err
  | [], acc, line, post, err => by
    intro _ hline
    rw [List.nil_append, buildDictAux, hline]
  | p :: ps, acc, line, post, err => by
    intro hpre hline
    obtain ⟨v, hv⟩ := hpre p (List.mem_cons_self _ _)
    rw [List.cons_append, buildDictAux, hv]
    cases v with
    | none =>
      exact buildDictAux_error gps ps acc line post err
        (fun l hl => hpre l (List.mem_cons_of_mem _ hl)) hline
    | some en =>
      exact buildDictAux_error gps ps (addEntry acc en) line post err
        (fun l hl => hpre l (List.mem_cons_of_mem _ hl)) hline

theorem fillFromFile_ok_some {fileLines : List String}
    {gps : String → String → String × String} {ret : TraceDict}
    (h : fillFromFile fileLines gps = .ok (some ret)) :
    pyStartswith (fileLines.headD "") expectedHeaderStr = true ∧
    ∃ es, entriesOfLines gps fileLines.tail = .ok es ∧
      ret = (es.foldl addEntry []).map
        (fun p => (p.1, List.insertionSort seqLe p.2)) := by
  rw [fillFromFile] at h
  by_cases hh : pyStartswith (fileLines.headD "") expectedHeaderStr = true
  · refine ⟨hh, ?_⟩
    rw [if_pos hh, buildDictAux_eq] at h
    cases he : entriesOfLines gps fileLines.tail with
    | error err => rw [he] at h; cases h
    | ok es =>
      rw [he] at h
      cases h
      exact ⟨es, rfl, rfl⟩
  · rw [if_neg hh] at h
    cases h

/-! ## The dictionary built by `fillFromFile` groups the entry list by key -/

theorem traceOf_append_one (past : List ShapesEntry) (e : ShapesEntry) (t : String) :
    traceOf (past ++ [e]) t =
      traceOf past t ++ (if e.shapeID == t then [e] else []) := by
  simp only [traceOf, List.filter_append, List.filter_cons, List.filter_nil]

theorem goodDict_addEntry {past : List ShapesEntry} {d : TraceDict} (e : ShapesEntry)
    (hg : goodDict past d) : goodDict (past ++ [e]) (addEntry d e) := by
  obtain ⟨hnd, hkeys, hval⟩ := hg
  rw [addEntry]
  by_cases hany : d.any (fun p => p.1 == e.shapeID) = true
  · rw [if_pos hany]
    obtain ⟨q, hq, hqid⟩ := List.any_eq_true.mp hany
    have hqid' : q.1 = e.shapeID := by simpa using hqid
    have hfst :
        (d.map (fun p => if p.1 == e.shapeID then (p.1, p.2 ++ [e]) else p)).map Prod.fst
          = d.map Prod.fst := by
      rw [List.map_map]
      refine List.map_congr_left ?_
      intro p _
      by_cases h : p.1 = e.shapeID
      · simp [h]
      · simp [h]
    refine ⟨by rw [hfst]; exact hnd, ?_, ?_⟩
    · intro t
      rw [hfst, List.map_append]
      constructor
      · intro ht
        exact List.mem_append_left _ ((hkeys t).mp ht)
      · intro ht
        rcases List.mem_append.mp ht with h1 | h1
        · exact (hkeys t).mpr h1
        · have ht' : t = e.shapeID := by simpa using h1
          subst ht'
          exact hqid' ▸ List.mem_map.mpr ⟨q, hq, rfl⟩
    · intro p hp
      obtain ⟨q', hq', hpq⟩ := List.mem_map.mp hp
      by_cases h : (q'.1 == e.shapeID) = true
      · rw [if_pos h] at hpq
        subst hpq
        dsimp only
        rw [hval q' hq', traceOf_append_one, if_pos]
        simpa using (by simpa using h : q'.1 = e.shapeID).symm
      · rw [if_neg h] at hpq
        subst hpq
        rw [hval q' hq', traceOf_append_one, if_neg, List.append_nil]
        intro hc
        exact h (by simpa using (by simpa using hc : e.shapeID = q'.1).symm)
  · rw [if_neg hany]
    have hnot : e.shapeID ∉ d.map Prod.fst := by
      intro hmem
      obtain ⟨q, hq, hqe⟩ := List.mem_map.mp hmem
      exact hany (List.any_eq_true.mpr ⟨q, hq, by simp [hqe]⟩)
    refine ⟨?_, ?_, ?_⟩
    · rw [List.map_append]
      simp only [List.map_cons, List.map_nil]
      rw [List.nodup_append]
      refine ⟨hnd, List.nodup_singleton _, ?_⟩
      intro t ht hts
      have : t = e.shapeID := by simpa using hts
      exact hnot (this ▸ ht)
    · intro t
      rw [List.map_append, List.map_append]
      simp only [List.map_cons, List.map_nil, List.mem_append]
      constructor
      · rintro (h1 | h1)
        · exact Or.inl ((hkeys t).mp h1)
        · exact Or.inr h1
      · rintro (h1 | h1)
        · exact Or.inl ((hkeys t).mpr h1)
        · exact Or.inr h1
    · intro p hp
      rcases List.mem_append.mp hp with h1 | h1
      · rw [hval p h1, traceOf_append_one, if_neg, List.append_nil]
        intro hc
        have : e.shapeID = p.1 := by simpa using hc
        exact hnot (this ▸ List.mem_map.mpr ⟨p, h1, rfl⟩)
      · have hp' : p = (e.shapeID, [e]) := by simpa using h1
        subst hp'
        dsimp only
        rw [traceOf_append_one, if_pos (by simp)]
        have hnil : traceOf past e.shapeID = [] := by
          rw [traceOf, List.filter_eq_nil_iff]
          intro a ha hc
          have : a.shapeID = e.shapeID := by simpa using hc
          exact hnot ((hkeys e.shapeID).mpr (this ▸ List.mem_map.mpr ⟨a, ha, rfl⟩))
        rw [hnil, List.nil_append]

theorem goodDict_foldl :
    ∀ (es : List ShapesEntry) (past : List ShapesEntry) (d : TraceDict),
      goodDict past d → goodDict (past ++ es) (es.foldl addEntry d)
  | [], past, d => by
    intro hg
    simpa using hg
  | e :: es, past, d => by
    intro hg
    have h1 := goodDict_foldl es (past ++ [e]) (addEntry d e) (goodDict_addEntry e hg)
    simpa [List.append_assoc] using h1

theorem goodDict_final (es : List ShapesEntry) :
    goodDict es (es.foldl addEntry []) := by
  have h := goodDict_foldl es [] [] ⟨List.nodup_nil, by simp, by simp⟩
  simpa using h

/-! ## Stability of the per-trace sort -/

theorem orderedInsert_seq_filter (c : Int) (a : ShapesEntry) :
    ∀ l : List ShapesEntry,
      (l.orderedInsert seqLe a).filter (fun e => e.shapeSeq == c) =
        if a.shapeSeq == c then a :: l.filter (fun e => e.shapeSeq == c)
        else l.filter (fun e => e.shapeSeq == c)
  | [] => by
    by_cases hpa : (a.shapeSeq == c) = true
    · simp [List.orderedInsert, List.filter_cons, hpa]
    · simp [List.orderedInsert, List.filter_cons, hpa]
  | b :: t => by
    rw [List.orderedInsert]
    by_cases hab : seqLe a b
    · rw [if_pos hab]
      by_cases hpa : (a.shapeSeq == c) = true
      · simp [List.filter_cons, hpa]
      · simp [List.filter_cons, hpa]
    · rw [if_neg hab]
      have hba : b.shapeSeq < a.shapeSeq := by
        have h1 : ¬ a.shapeSeq ≤ b.shapeSeq := hab
        omega
      by_cases hpb : (b.shapeSeq == c) = true
      · by_cases hpa : (a.shapeSeq == c) = true
        · exfalso
          have h1 : a.shapeSeq = c := by simpa using hpa
          have h2 : b.shapeSeq = c := by simpa using hpb
          omega
        · simp [List.filter_cons, orderedInsert_seq_filter c a t, hpa, hpb]
      · by_cases hpa : (a.shapeSeq == c) = true
        · simp [List.filter_cons, orderedInsert_seq_filter c a t, hpa, hpb]
        · simp [List.filter_cons, orderedInsert_seq_filter c a t, hpa, hpb]

theorem insertionSort_seq_filter (c : Int) :
    ∀ l : List ShapesEntry,
      (List.insertionSort seqLe l).filter (fun e => e.shapeSeq == c) =
        l.filter (fun e => e.shapeSeq == c)
  | [] => rfl
  | a :: t => by
    rw [List.insertionSort, orderedInsert_seq_filter c a, insertionSort_seq_filter c t,
        List.filter_cons]

/-! ## Inversion of the per-line processing -/

theorem processLine_ok_some {gps : String → String → String × String} {line : String}
    {e : ShapesEntry} (h : processLine gps line = .ok (some e)) :
    ∃ r : Int, pyInt (fieldOf line 18) = .ok r ∧ 0 < r ∧
      e.shapeID = mkTraceId (fieldOf line 3) (fieldOf line 18) := by
  rw [processLine] at h
  by_cases h0 : 0 < line.length
  case neg => rw [if_neg h0] at h; cases h
  rw [if_pos h0] at h
  dsimp only at h
  by_cases h18 : 18 < (pySplitComma line).length
  case neg => rw [if_neg h18] at h; cases h
  rw [if_pos h18] at h
  cases hr : pyInt ((pySplitComma line).getD 18 "") with
  | error err => rw [hr] at h; cases h
  | ok routeID =>
    rw [hr] at h
    dsimp only at h
    by_cases hpos : 0 < routeID
    case neg => rw [if_neg hpos] at h; cases h
    rw [if_pos hpos] at h
    refine ⟨routeID, hr, hpos, ?_⟩
    cases hs : pyInt ((pySplitComma line).getD 0 "") with
    | error err => rw [hs] at h; cases h
    | ok seq =>
      rw [hs] at h
      dsimp only at h
      cases hlat : pyFloat ((pySplitComma line).getD 15 "") with
      | error err => rw [hlat] at h; cases h
      | ok lat =>
        rw [hlat] at h
        dsimp only at h
        cases hlng : pyFloat ((pySplitComma line).getD 16 "") with
        | error err => rw [hlng] at h; cases h
        | ok lng =>
          rw [hlng] at h
          dsimp only at h
          cases ht : pyStrptime ((pySplitComma line).getD 8 "") with
          | error err => rw [ht] at h; cases h
          | ok t =>
            rw [ht] at h
            dsimp only at h
            cases h
            rfl

/-- A trace of the final mapping is the stable sort of the file-order
sub-list of records carrying its identifier. -/
theorem fillFromFile_trace {fileLines : List String}
    {gps : String → String → String × String} {ret : TraceDict}
    {tid : String} {es : List ShapesEntry}
    (h : fillFromFile fileLines gps = .ok (some ret)) (hm : (tid, es) ∈ ret) :
    ∃ allEs, entriesOfLines gps fileLines.tail = .ok allEs ∧
      es = List.insertionSort seqLe (traceOf allEs tid) := by
  obtain ⟨-, allEs, hall, hret⟩ := fillFromFile_ok_some h
  subst hret
  obtain ⟨p, hp, hpe⟩ := List.mem_map.mp hm
  obtain ⟨-, -, hval⟩ := goodDict_final allEs
  rw [Prod.ext_iff] at hpe
  obtain ⟨h1, h2⟩ := hpe
  dsimp only at h1 h2
  refine ⟨allEs, hall, ?_⟩
  rw [← h2, hval p hp, h1]

/-- The keys of the final mapping are distinct and are exactly the
identifiers occurring among the ingested records. -/
theorem fillFromFile_keys {fileLines : List String}
    {gps : String → String → String × String} {ret : TraceDict}
    (h : fillFromFile fileLines gps = .ok (some ret)) :
    (ret.map Prod.fst).Nodup ∧
    ∃ allEs, entriesOfLines gps fileLines.tail = .ok allEs ∧
      (∀ t, t ∈ ret.map Prod.fst ↔ t ∈ allEs.map ShapesEntry.shapeID) := by
  obtain ⟨-, allEs, hall, hret⟩ := fillFromFile_ok_some h
  subst hret
  obtain ⟨hnd, hkeys, -⟩ := goodDict_final allEs
  have hfst : ((allEs.foldl addEntry []).map
      (fun p => (p.1, List.insertionSort seqLe p.2))).map Prod.fst =
      (allEs.foldl addEntry []).map Prod.fst := by
    rw [List.map_map]
    exact List.map_congr_left (fun p _ => rfl)
  rw [hfst]
  exact ⟨hnd, allEs, hall, hkeys⟩

/-! ## Lemmas about `pathMatch` -/

theorem pathMatch_ok {μ : Type} (matchFn : List ShapesEntry → μ)
    {fileLines : List String} {gps : String → String → String × String}
    {gpsTracks : TraceDict}
    (h : fillFromFile fileLines gps = .ok (some gpsTracks))
    (limitMap : Option (List String))
    (hw : ∀ lm, limitMap = some lm → ∀ x ∈ lm, x ∈ gpsTracks.map Prod.fst) :
    pathMatch matchFn fileLines gps limitMap =
      .ok ((List.insertionSort pyStrLe (gpsTracks.map Prod.fst)).filterMap (fun tid =>
        match limitMap with
        | some lm =>
          if lm.contains tid then
            some (tid, matchFn ((gpsTracks.lookup tid).getD []))
          else none
        | none => some (tid, matchFn ((gpsTracks.lookup tid).getD [])))) := by
  cases limitMap with
  | none =>
    rw [pathMatch, h]
    rfl
  | some lm =>
    rw [pathMatch, h]
    dsimp only
    have hall : lm.all (fun x =>
        (List.insertionSort pyStrLe (gpsTracks.map Prod.fst)).contains x) = true := by
      rw [List.all_eq_true]
      intro x hx
      have hx' : x ∈ List.insertionSort pyStrLe (gpsTracks.map Prod.fst) :=
        (List.mem_insertionSort pyStrLe).mpr (hw lm rfl x hx)
      simpa [List.contains, List.elem_iff] using hx'
    rw [if_pos hall]

theorem filterMap_guard_map_fst {μ : Type} (g : String → μ) (p : String → Bool) :
    ∀ l : List String,
      ((l.filterMap (fun tid => if p tid then some (tid, g tid) else none)).map
        Prod.fst) = l.filter p
  | [] => rfl
  | a :: t => by
    rw [List.filterMap_cons, List.filter_cons]
    by_cases hp : p a = true
    · rw [if_pos hp, if_pos hp, List.map_cons, filterMap_guard_map_fst g p t]
    · rw [if_neg hp, if_neg hp, filterMap_guard_map_fst g p t]

theorem filterMap_some_map_fst {μ : Type} (g : String → μ) :
    ∀ l : List String,
      ((l.filterMap (fun tid => some (tid, g tid))).map Prod.fst) = l
  | [] => rfl
  | a :: t => by
    rw [List.filterMap_cons]
    dsimp only
    rw [List.map_cons, filterMap_some_map_fst g t]

/-! ## Injectivity of the trace identifier -/

theorem mem_stripWs {l : List Char} {c : Char} (h : c ∈ l) :
    isPySpace c = true ∨ c ∈ stripWs l := by
  rcases List.mem_append.mp
      ((List.takeWhile_append_dropWhile isPySpace l) ▸ h) with h1 | h1
  · exact Or.inl (List.mem_takeWhile_imp h1)
  · have h2 : c ∈ (l.dropWhile isPySpace).reverse := List.mem_reverse.mpr h1
    rcases List.mem_append.mp
        ((List.takeWhile_append_dropWhile isPySpace
          ((l.dropWhile isPySpace).reverse)) ▸ h2) with h3 | h3
    · exact Or.inl (List.mem_takeWhile_imp h3)
    · exact Or.inr (List.mem_reverse.mpr h3)

theorem some_of_if {α : Type} {b : Prop} [Decidable b] {x : α} {n : α}
    (h : (if b then some x else none) = some n) : b := by
  by_cases hb : b
  · exact hb
  · rw [if_neg hb] at h
    cases h

theorem pyIntCore_chars {s : String} {n : Int} (h : pyIntCore s = some n) :
    ∀ c ∈ s.data, isPySpace c = true ∨ c = '+' ∨ c = '-' ∨ c.isDigit = true := by
  intro c hc
  rcases mem_stripWs hc with h1 | h1
  · exact Or.inl h1
  · rw [pyIntCore] at h
    cases hs : stripWs s.data with
    | nil => rw [hs] at h1; cases h1
    | cons a rest =>
      rw [hs] at h h1
      dsimp only at h
      by_cases ha : a = '+'
      · rw [if_pos ha] at h
        have hd : digitsOk rest = true := some_of_if h
        rcases List.mem_cons.mp h1 with rfl | hm
        · exact Or.inr (Or.inl ha)
        · exact Or.inr (Or.inr (Or.inr
            (List.all_eq_true.mp (Bool.and_elim_right hd) c hm)))
      · rw [if_neg ha] at h
        by_cases hb : a = '-'
        · rw [if_pos hb] at h
          have hd : digitsOk rest = true := some_of_if h
          rcases List.mem_cons.mp h1 with rfl | hm
          · exact Or.inr (Or.inr (Or.inl hb))
          · exact Or.inr (Or.inr (Or.inr
              (List.all_eq_true.mp (Bool.and_elim_right hd) c hm)))
        · rw [if_neg hb] at h
          have hd : digitsOk (a :: rest) = true := some_of_if h
          exact Or.inr (Or.inr (Or.inr
            (List.all_eq_true.mp (Bool.and_elim_right hd) c h1)))

theorem pyIntCore_no_paren {s : String} {n : Int} (h : pyIntCore s = some n) :
    '(' ∉ s.data := by
  intro hc
  rcases pyIntCore_chars h '(' hc with h1 | h1 | h1 | h1
  · exact absurd h1 (by decide)
  · exact absurd h1 (by decide)
  · exact absurd h1 (by decide)
  · exact absurd h1 (by decide)

theorem append_mark_inj :
    ∀ (x1 y1 x2 y2 : List Char), '(' ∉ x1 → '(' ∉ x2 →
      x1 ++ '(' :: y1 = x2 ++ '(' :: y2 → x1 = x2 ∧ y1 = y2
  | [], y1, [], y2 => by
    intro _ _ h
    rw [List.nil_append, List.nil_append] at h
    injection h with _ h2
    exact ⟨rfl, h2⟩
  | [], y1, a :: t2, y2 => by
    intro _ h2 h
    rw [List.nil_append, List.cons_append] at h
    injection h with ha _
    exact absurd (ha ▸ List.mem_cons_self a t2) (fun hc => h2 hc)
  | a :: t1, y1, [], y2 => by
    intro h1 _ h
    rw [List.nil_append, List.cons_append] at h
    injection h with ha _
    exact absurd (ha.symm ▸ List.mem_cons_self a t1) (fun hc => h1 hc)
  | a :: t1, y1, b :: t2, y2 => by
    intro h1 h2 h
    rw [List.cons_append, List.cons_append] at h
    injection h with hab ht
    obtain ⟨hx, hy⟩ := append_mark_inj t1 y1 t2 y2
      (fun hc => h1 (List.mem_cons_of_mem _ hc))
      (fun hc => h2 (List.mem_cons_of_mem _ hc)) ht
    exact ⟨by rw [hab, hx], hy⟩

theorem mkTraceId_inj {d1 r1 d2 r2 : String}
    (h1 : '(' ∉ r1.data) (h2 : '(' ∉ r2.data)
    (h : mkTraceId d1 r1 = mkTraceId d2 r2) : d1 = d2 ∧ r1 = r2 := by
  have hd : d1.data ++ '(' :: (r1.data ++ [')']) =
      d2.data ++ '(' :: (r2.data ++ [')']) := by
    have := congrArg String.data h
    simpa [mkTraceId] using this
  have hrev := congrArg List.reverse hd
  simp only [List.reverse_append, List.reverse_cons, List.reverse_nil,
    List.nil_append, List.append_assoc, List.singleton_append] at hrev
  injection hrev with _ hrev'
  obtain ⟨hx, hy⟩ := append_mark_inj r1.data.reverse d1.data.reverse
      r2.data.reverse d2.data.reverse
      (fun hc => h1 (List.mem_reverse.mp hc))
      (fun hc => h2 (List.mem_reverse.mp hc)) hrev'
  refine ⟨String.ext ?_, String.ext ?_⟩
  · have := congrArg List.reverse hy
    simpa using this
  · have := congrArg List.reverse hx
    simpa using this

/-! ## The claims -/

set_option maxRecDepth 8192 in
/-- C1 counterexample: a first line that deviates from the fixed expected
19-column header string by carrying an extra trailing column is nevertheless
accepted — ingestion succeeds and yields trace data — because the source
compares the header with `startswith` rather than with equality.  This
refutes the claim that every deviating header is rejected. -/
theorem C1_header_exact_counterexample :
    c1Lines.headD "" ≠ expectedHeaderStr ∧
    fillFromFile c1Lines gps0 = .ok (some [("A(5)", [mkRowEntry "A(5)" 1 "30.5"])]) :=
  ⟨by decide, rfl⟩

/-- C1 (amended): ingestion fails with the schema-mismatch condition (returns
`None`, so no trace data) exactly when the first line does not START WITH the
expected 19-column header string.  Missing, misspelled or reordered columns
are rejected; a header extending the expected one with extra trailing
text/columns is accepted. -/
theorem C1_header_startswith_amended (fileLines : List String)
    (gps : String → String → String × String) :
    fillFromFile fileLines gps = .ok none ↔
      pyStartswith (fileLines.headD "") expectedHeaderStr = false := by
  constructor
  · intro h
    cases hb : pyStartswith (fileLines.headD "") expectedHeaderStr with
    | false => rfl
    | true =>
      exfalso
      rw [fillFromFile, if_pos hb] at h
      cases hd : buildDictAux gps [] fileLines.tail with
      | error err => rw [hd] at h; cases h
      | ok d => rw [hd] at h; cases h
  · intro h
    rw [fillFromFile, h, if_neg (by decide)]

set_option maxRecDepth 8192 in
/-- C1 amended witness: a misspelled header is rejected with no data. -/
theorem C1_header_startswith_amended_witness :
    fillFromFile ["OBJECTID,bad header"] gps0 = .ok none :=
  (C1_header_startswith_amended ["OBJECTID,bad header"] gps0).mpr (by decide)

/-- C2 (code-bug evaluation): with ingested data containing only the trace
`A(5)` and an allow-list containing only `B(9)`, `pathMatch` raises a
`TypeError` — the warning message formats the string identifier with `%d` —
instead of printing one warning and continuing to an empty result mapping. -/
theorem C2_allowlist_warning_bug :
    fillFromFile c3Lines gps0 = .ok (some [("A(5)", [mkRowEntry "A(5)" 1 "30.5"])]) ∧
    pathMatch (fun _ => ()) c3Lines gps0 (some ["B(9)"]) = .error .typeError :=
  ⟨rfl, rfl⟩

/-- C7 (code-bug evaluation): after a valid header, a blank line — a
newline-only physical line, which has length 1 and so passes the
`len(fileLine) > 0` guard — makes ingestion raise an `IndexError` when field
18 of the one-element split is read, instead of producing no record and no
error. -/
theorem C7_blank_line_bug :
    fillFromFile c7Lines gps0 = .error .indexError := rfl

/-- C9: invoking the program with fewer than 5 positional arguments (that is,
`sys.argv` shorter than 6 entries including the program name) prints the
usage message and exits with status 0; the `.usage` action is taken before
any ingestion or matching. -/
theorem C9_usage_exit (argv : List String) (h : argv.length < 6) :
    mainProgram argv = .usage usageLines 0 := by
  rw [mainProgram, if_pos h]

/-- C9 witness: the bare program name. -/
theorem C9_usage_exit_witness :
    mainProgram ["gdb_extracted.py"] = .usage usageLines 0 :=
  C9_usage_exit ["gdb_extracted.py"] (by decide)

/-- C4: for every ingested trace, after ingestion the sequence of `shapeSeq`
(sequence-number) values is non-decreasing, regardless of on-disk order; and
in the concrete scenario where two same-trace rows carry sequence numbers 3
then 1 on disk, the ingested trace has them ordered [1, 3]. -/
theorem C4_traces_sorted_by_seq :
    (∀ (fileLines : List String) (gps : String → String → String × String)
        (ret : TraceDict) (tid : String) (es : List ShapesEntry),
        fillFromFile fileLines gps = .ok (some ret) → (tid, es) ∈ ret →
        es.Sorted seqLe) ∧
    fillFromFile c4Lines gps0 = .ok (some [("A(5\n)", c4Entries)]) ∧
    c4Entries.map ShapesEntry.shapeSeq = [1, 3] := by
  refine ⟨?_, rfl, rfl⟩
  intro fileLines gps ret tid es h hm
  haveI : IsTotal ShapesEntry seqLe := ⟨fun a b => Int.le_total a.shapeSeq b.shapeSeq⟩
  haveI : IsTrans ShapesEntry seqLe := ⟨fun _ _ _ hab hbc => le_trans hab hbc⟩
  obtain ⟨allEs, -, rfl⟩ := fillFromFile_trace h hm
  exact List.sorted_insertionSort seqLe _

/-- C4 witness: the sortedness part applied to the concrete two-row file. -/
theorem C4_traces_sorted_by_seq_witness : List.Sorted seqLe c4Entries :=
  C4_traces_sorted_by_seq.1 c4Lines gps0 [("A(5\n)", c4Entries)] "A(5\n)" c4Entries
    rfl (List.mem_singleton.mpr rfl)

/-- C6: every record of every trace returned by ingestion stems from a data
line whose route-identifier field (field 18) parses to a strictly positive
integer; a record from a line with a non-positive route identifier never
appears in any trace. -/
theorem C6_routeId_positive :
    ∀ (fileLines : List String) (gps : String → String → String × String)
      (ret : TraceDict) (tid : String) (es : List ShapesEntry) (e : ShapesEntry),
      fillFromFile fileLines gps = .ok (some ret) → (tid, es) ∈ ret → e ∈ es →
      ∃ line, line ∈ fileLines.tail ∧ processLine gps line = .ok (some e) ∧
        ∃ r : Int, pyInt (fieldOf line 18) = .ok r ∧ 0 < r := by
  intro fileLines gps ret tid es e h hm hme
  obtain ⟨allEs, hall, rfl⟩ := fillFromFile_trace h hm
  have hm2 : e ∈ traceOf allEs tid := (List.mem_insertionSort seqLe).mp hme
  have hm3 : e ∈ allEs := List.mem_of_mem_filter hm2
  obtain ⟨line, hl, hpl⟩ := entriesOfLines_mem gps fileLines.tail allEs e hall hm3
  obtain ⟨r, hr, hrp, -⟩ := processLine_ok_some hpl
  exact ⟨line, hl, hpl, r, hr, hrp⟩

/-- C6 witness: the single record of the one-row scenario file. -/
theorem C6_routeId_positive_witness :
    ∃ line, line ∈ c3Lines.tail ∧
      processLine gps0 line = .ok (some (mkRowEntry "A(5)" 1 "30.5")) ∧
      ∃ r : Int, pyInt (fieldOf line 18) = .ok r ∧ 0 < r :=
  C6_routeId_positive c3Lines gps0 [("A(5)", [mkRowEntry "A(5)" 1 "30.5"])] "A(5)"
    [mkRowEntry "A(5)" 1 "30.5"] (mkRowEntry "A(5)" 1 "30.5") rfl
    (List.mem_singleton.mpr rfl) (List.mem_singleton.mpr rfl)

/-- C10: the per-trace sort at the end of ingestion is stable: for any
sequence-number value `c`, the records of an ingested trace whose sequence
number equals `c` appear in exactly the order in which they occur in the
file (`entriesOfLines` lists the produced records in file order and
`traceOf` is its in-order per-trace sub-list). -/
theorem C10_sort_stable :
    ∀ (fileLines : List String) (gps : String → String → String × String)
      (ret : TraceDict) (tid : String) (es : List ShapesEntry) (c : Int),
      fillFromFile fileLines gps = .ok (some ret) → (tid, es) ∈ ret →
      ∃ allEs, entriesOfLines gps fileLines.tail = .ok allEs ∧
        es.filter (fun e => e.shapeSeq == c) =
          (traceOf allEs tid).filter (fun e => e.shapeSeq == c) := by
  intro fileLines gps ret tid es c h hm
  obtain ⟨allEs, hall, rfl⟩ := fillFromFile_trace h hm
  exact ⟨allEs, hall, insertionSort_seq_filter c (traceOf allEs tid)⟩

/-- C10 witness: two same-trace records with equal sequence number 7. -/
theorem C10_sort_stable_witness :
    ∃ allEs, entriesOfLines gps0 c10Lines.tail = .ok allEs ∧
      c10Entries.filter (fun e => e.shapeSeq == (7 : Int)) =
        (traceOf allEs "A(5\n)").filter (fun e => e.shapeSeq == (7 : Int)) :=
  C10_sort_stable c10Lines gps0 [("A(5\n)", c10Entries)] "A(5\n)" c10Entries 7
    rfl (List.mem_singleton.mpr rfl)

/-- C3 counterexample: identical parsed `(datafile, routeId)` pairs do NOT
always produce the same identifier string.  In this file both data rows have
Datafile field `A` and a RouteId field parsing to 5, yet the first row (whose
raw field is `5` followed by the line terminator) is keyed by a different
identifier string than the final, unterminated row (raw field `5`), and the
records of one route even split into two traces.  This also shows the
one-trace `A(5)` scenario holds only when the data row is the file's last,
unterminated line. -/
theorem C3_traceId_value_counterexample :
    fillFromFile c3PairLines gps0 =
      .ok (some [("A(5\n)", [mkRowEntry "A(5\n)" 1 "30.5"]),
                 ("A(5)", [mkRowEntry "A(5)" 2 "31.5"])]) ∧
    fieldOf (c3PairLines.getD 1 "") 3 = "A" ∧
    fieldOf (c3PairLines.getD 2 "") 3 = "A" ∧
    pyInt (fieldOf (c3PairLines.getD 1 "") 18) = .ok 5 ∧
    pyInt (fieldOf (c3PairLines.getD 2 "") 18) = .ok 5 ∧
    (mkRowEntry "A(5\n)" 1 "30.5").shapeID ≠ (mkRowEntry "A(5)" 2 "31.5").shapeID :=
  ⟨rfl, rfl, rfl, rfl, rfl, by decide⟩

/-- C3 (amended): the identifier computation is deterministic and
collision-free on the raw field-text pair.  Every included record is keyed by
the Datafile field concatenated with the parenthesized RouteId field exactly
as split from the line (so the last field of a newline-terminated row keeps
its terminator); identical raw field pairs always produce the same
identifier, and distinct raw pairs whose route fields parse as integers never
collide (an integer-parseable field cannot contain a parenthesis, so the
encoding is injective).  Identical parsed `(datafile, routeId)` values can
still yield different identifiers when the raw route fields differ; the
scenario file, whose single data row is the final unterminated line, yields
exactly one trace keyed `A(5)` with exactly one record. -/
theorem C3_traceId_field_amended :
    (∀ (gps : String → String → String × String) (line : String) (e : ShapesEntry),
        processLine gps line = .ok (some e) →
        e.shapeID = mkTraceId (fieldOf line 3) (fieldOf line 18)) ∧
    (∀ d1 r1 d2 r2 : String,
        (∃ n1, pyIntCore r1 = some n1) → (∃ n2, pyIntCore r2 = some n2) →
        (mkTraceId d1 r1 = mkTraceId d2 r2 ↔ (d1 = d2 ∧ r1 = r2))) ∧
    fillFromFile c3Lines gps0 = .ok (some [("A(5)", [mkRowEntry "A(5)" 1 "30.5"])]) := by
  refine ⟨?_, ?_, rfl⟩
  · intro gps line e h
    obtain ⟨r, -, -, hid⟩ := processLine_ok_some h
    exact hid
  · rintro d1 r1 d2 r2 ⟨n1, h1⟩ ⟨n2, h2⟩
    constructor
    · exact fun h => mkTraceId_inj (pyIntCore_no_paren h1) (pyIntCore_no_paren h2) h
    · rintro ⟨rfl, rfl⟩
      rfl

/-- C3 amended witness: the keying fact on the concrete row and the
injectivity instance for two concrete distinct pairs. -/
theorem C3_traceId_field_amended_witness :
    (mkRowEntry "A(5)" 1 "30.5").shapeID =
      mkTraceId (fieldOf (mkRow "1" "A" "30.5" "5") 3)
        (fieldOf (mkRow "1" "A" "30.5" "5") 18) ∧
    (mkTraceId "A" "5" = mkTraceId "B" "7" ↔ ("A" = "B" ∧ "5" = "7")) :=
  ⟨C3_traceId_field_amended.1 gps0 (mkRow "1" "A" "30.5" "5")
      (mkRowEntry "A(5)" 1 "30.5") rfl,
   C3_traceId_field_amended.2.1 "A" "5" "B" "7" ⟨5, rfl⟩ ⟨7, rfl⟩⟩

/-- C8: a data row whose fields fail to parse is fatal: with a valid header,
if the rows before it process without an exception and the row itself raises
a parse exception, ingestion returns exactly that exception (the row is not
silently dropped); and a schema mismatch (the `None` result) happens only on
a header mismatch, never from a data row — parse failures always surface as
propagated errors. -/
theorem C8_parse_errors_fatal :
    (∀ (hdr : String) (pre : List String) (line : String) (post : List String)
        (gps : String → String → String × String) (err : PyError),
        pyStartswith hdr expectedHeaderStr = true →
        (∀ l ∈ pre, ∃ v, processLine gps l = .ok v) →
        processLine gps line = .error err →
        fillFromFile (hdr :: (pre ++ line :: post)) gps = .error err) ∧
    (∀ (fileLines : List String) (gps : String → String → String × String),
        fillFromFile fileLines gps = .ok none →
        pyStartswith (fileLines.headD "") expectedHeaderStr = false) := by
  constructor
  · intro hdr pre line post gps err hh hpre hline
    rw [fillFromFile, List.headD_cons, List.tail_cons, if_pos hh,
      buildDictAux_error gps pre [] line post err hpre hline]
  · intro fileLines gps h
    cases hb : pyStartswith (fileLines.headD "") expectedHeaderStr with
    | false => rfl
    | true =>
      exfalso
      rw [fillFromFile, if_pos hb] at h
      cases hd : buildDictAux gps [] fileLines.tail with
      | error err => rw [hd] at h; cases h
      | ok d => rw [hd] at h; cases h

set_option maxRecDepth 8192 in
/-- C8 witness: a row whose RouteId field is not an integer halts ingestion
with the propagated `ValueError`. -/
theorem C8_parse_errors_fatal_witness :
    fillFromFile (expectedHeaderStr :: ([] ++ c8BadRow :: [])) gps0 =
      .error .valueError :=
  C8_parse_errors_fatal.1 expectedHeaderStr [] c8BadRow [] gps0 .valueError rfl
    (fun l hl => absurd hl (List.not_mem_nil l)) rfl

/-- C5: after a successful ingestion, the result mapping of `pathMatch` with
an allow-list containing only present identifiers has key set exactly that
allow-list, and with no allow-list it has key set exactly the ingested trace
identifiers; in both cases the engine runs once per selected identifier
(distinct keys) and the keys come in ascending sorted order, independent of
file order. -/
theorem C5_result_keys :
    ∀ (μ : Type) (matchFn : List ShapesEntry → μ) (fileLines : List String)
      (gps : String → String → String × String) (gpsTracks : TraceDict),
      fillFromFile fileLines gps = .ok (some gpsTracks) →
      ((∀ lm : List String, (∀ x ∈ lm, x ∈ gpsTracks.map Prod.fst) →
          ∃ res, pathMatch matchFn fileLines gps (some lm) = .ok res ∧
            (∀ t, t ∈ res.map Prod.fst ↔ t ∈ lm) ∧
            (res.map Prod.fst).Sorted pyStrLe ∧ (res.map Prod.fst).Nodup) ∧
       (∃ res, pathMatch matchFn fileLines gps none = .ok res ∧
          (∀ t, t ∈ res.map Prod.fst ↔ t ∈ gpsTracks.map Prod.fst) ∧
          (res.map Prod.fst).Sorted pyStrLe ∧ (res.map Prod.fst).Nodup)) := by
  intro μ matchFn fileLines gps gpsTracks h
  haveI : IsTotal String pyStrLe := ⟨fun a b => charListLeB_total a.data b.data⟩
  haveI : IsTrans String pyStrLe := ⟨fun a b c => charListLeB_trans a.data b.data c.data⟩
  obtain ⟨hnd, -⟩ := fillFromFile_keys h
  have hkperm : List.Perm (List.insertionSort pyStrLe (gpsTracks.map Prod.fst))
      (gpsTracks.map Prod.fst) := List.perm_insertionSort pyStrLe _
  have hksort : (List.insertionSort pyStrLe (gpsTracks.map Prod.fst)).Sorted pyStrLe :=
    List.sorted_insertionSort pyStrLe _
  have hknd : (List.insertionSort pyStrLe (gpsTracks.map Prod.fst)).Nodup :=
    hkperm.nodup_iff.mpr hnd
  have hcm : ∀ (lm : List String) (t : String), (lm.contains t = true) ↔ t ∈ lm := by
    intro lm t
    simp [List.contains, List.elem_iff]
  constructor
  · intro lm hsub
    refine ⟨_, pathMatch_ok matchFn h (some lm)
      (fun lm' heq x hx => by cases heq; exact hsub x hx), ?_, ?_, ?_⟩
    · intro t
      rw [filterMap_guard_map_fst (fun tid => matchFn ((gpsTracks.lookup tid).getD []))
        (fun tid => lm.contains tid), List.mem_filter]
      constructor
      · intro ht
        exact (hcm lm t).mp ht.2
      · intro ht
        exact ⟨(List.mem_insertionSort pyStrLe).mpr (hsub t ht), (hcm lm t).mpr ht⟩
    · rw [filterMap_guard_map_fst (fun tid => matchFn ((gpsTracks.lookup tid).getD []))
        (fun tid => lm.contains tid)]
      exact hksort.sublist (List.filter_sublist _)
    · rw [filterMap_guard_map_fst (fun tid => matchFn ((gpsTracks.lookup tid).getD []))
        (fun tid => lm.contains tid)]
      exact hknd.sublist (List.filter_sublist _)
  · refine ⟨_, pathMatch_ok matchFn h none (fun lm' heq => by cases heq), ?_, ?_, ?_⟩
    · intro t
      rw [filterMap_some_map_fst (fun tid => matchFn ((gpsTracks.lookup tid).getD []))]
      exact hkperm.mem_iff
    · rw [filterMap_some_map_fst (fun tid => matchFn ((gpsTracks.lookup tid).getD []))]
      exact hksort
    · rw [filterMap_some_map_fst (fun tid => matchFn ((gpsTracks.lookup tid).getD []))]
      exact hknd

/-- C5 witness: the allow-list case on the two-trace scenario file. -/
theorem C5_result_keys_witness :
    ∃ res, pathMatch (fun _ => ()) c5Lines gps0 (some ["A(5\n)"]) = .ok res ∧
      (∀ t, t ∈ res.map Prod.fst ↔ t ∈ ["A(5\n)"]) ∧
      (res.map Prod.fst).Sorted pyStrLe ∧ (res.map Prod.fst).Nodup :=
  ((C5_result_keys Unit (fun _ => ()) c5Lines gps0 c5Dict rfl).1) ["A(5\n)"]
    (by decide)
